import Mathlib

/-!
Verification of the PartyOn audio streamer core.

This file gives a shallow embedding of the three core modules of the
repository and proves properties of them:

* `src/config.py` — `ServerConfig`, `validate_config`, `load_config`;
* `src/connection_manager.py` — `ClientInfo`, `ConnectionManager` with
  `add_client`, `remove_client`, `get_stats`, `broadcast`, `close_all`;
* `src/audio_capture.py` — `AudioCapture` with `initialize`, `read_block`,
  `stop`, `reinitialize`, `get_device_info` and the two probing strategies.

External effects are modelled by oracles: a send/close failure oracle for
websocket transports, a probe-outcome oracle for audio device opens, and a
read outcome for the device stream.  Time (datetime.now) is modelled as a
natural number supplied by the caller.
-/

set_option autoImplicit false

/-! ## Configuration (src/config.py) -/

/-- Embedding of the `ServerConfig` dataclass with its default field
values.  Numeric fields are `Int` (Python integers are unbounded). -/
structure ServerConfig where
  http_port : Int := 5000
  ws_port : Int := 8765
  sample_rate : Int := 44100
  channels : Int := 2
  block_size : Int := 1024
  log_level : String := "INFO"
  max_reconnect_attempts : Int := 10
  client_timeout_seconds : Int := 30
deriving Repr, DecidableEq

/-- Python `str.upper()`, character by character (executable model). -/
def strUpper (s : String) : String := ⟨s.data.map Char.toUpper⟩

/-- Python `str.lower()`, character by character (executable model). -/
def strLower (s : String) : String := ⟨s.data.map Char.toLower⟩

/-- The list `valid_sample_rates` from `validate_config`. -/
def valid_sample_rates : List Int := [22050, 44100, 48000]

/-- The list `valid_levels` from `validate_config`. -/
def valid_levels : List String := ["DEBUG", "INFO", "WARNING", "ERROR"]

/-- Embedding of `validate_config`: each field is checked in turn and an
invalid value is replaced by the corresponding default. -/
def validate_config (config : ServerConfig) : ServerConfig :=
  let defaults : ServerConfig := {}
  let config1 :=
    if config.sample_rate ∈ valid_sample_rates then config
    else { config with sample_rate := defaults.sample_rate }
  let config2 :=
    if 512 ≤ config1.block_size ∧ config1.block_size ≤ 4096 then config1
    else { config1 with block_size := defaults.block_size }
  let config3 :=
    if strUpper config2.log_level ∈ valid_levels then
      { config2 with log_level := strUpper config2.log_level }
    else { config2 with log_level := defaults.log_level }
  let config4 :=
    if 1 ≤ config3.http_port ∧ config3.http_port ≤ 65535 then config3
    else { config3 with http_port := defaults.http_port }
  let config5 :=
    if 1 ≤ config4.ws_port ∧ config4.ws_port ≤ 65535 then config4
    else { config4 with ws_port := defaults.ws_port }
  config5

/-- The possible states of the configuration file as seen by
`load_config`: missing (a template is written, defaults returned), invalid
JSON, some other read error, or successfully parsed data.  In the parsed
case the record holds the result of `ServerConfig(**data)` after dropping
unknown keys: absent keys take their dataclass defaults, so every
`ServerConfig` value represents a possible parse. -/
inductive ConfigFile where
  | missing
  | invalidJson
  | readError
  | parsed (data : ServerConfig)

/-- Embedding of `load_config` over the abstract file state.  The
side effect of writing a template file in the missing case is outside the
model; the returned value is what the claims are about. -/
def load_config : ConfigFile → ServerConfig
  | ConfigFile.missing => {}
  | ConfigFile.invalidJson => {}
  | ConfigFile.readError => {}
  | ConfigFile.parsed data => validate_config data

/-! ## Connection manager (src/connection_manager.py) -/

/-- The identity of a websocket: `remote_address` is the pair
(host, port).  Transport behaviour (send/close failures) is modelled by
oracles keyed on the client id, not stored here. -/
structure WebSocket where
  host : String
  port : Nat
deriving Repr, DecidableEq

/-- Embedding of the `ClientInfo` dataclass.  Timestamps are `Nat`. -/
structure ClientInfo where
  websocket : WebSocket
  connected_at : Nat
  last_activity : Nat
  address : String
  packets_sent : Nat
deriving Repr, DecidableEq

/-- Embedding of `ConnectionManager`: the `clients` dict is an ordered
association list (Python dicts preserve insertion order; assignment to an
existing key updates the value in place). -/
structure ConnectionManager where
  clients : List (String × ClientInfo)
  total_served : Nat
deriving Repr, DecidableEq

/-- The keys of the clients map, in insertion order. -/
def clientKeys (l : List (String × ClientInfo)) : List String :=
  l.map Prod.fst

/-- Python dict assignment `d[k] = v`: replace the value in place when the
key is present, append a new entry otherwise. -/
def dictInsert (k : String) (v : ClientInfo) :
    List (String × ClientInfo) → List (String × ClientInfo)
  | [] => [(k, v)]
  | (k0, v0) :: rest =>
      if k0 = k then (k, v) :: rest else (k0, v0) :: dictInsert k v rest

/-- Python dict deletion `del d[k]`: drop the (first) entry with key `k`,
leave the list unchanged when the key is absent. -/
def dictRemove (k : String) :
    List (String × ClientInfo) → List (String × ClientInfo)
  | [] => []
  | (k0, v0) :: rest =>
      if k0 = k then rest else (k0, v0) :: dictRemove k rest

/-- The client id string built by `add_client`:
`f"{websocket.remote_address[0]}:{websocket.remote_address[1]}"`. -/
def clientId (ws : WebSocket) : String :=
  ws.host ++ ":" ++ toString ws.port

/-- Embedding of `ConnectionManager.add_client`: derive the id, insert a
fresh `ClientInfo` with both timestamps set to `now`, increment
`total_served`, return the new state and the id. -/
def ConnectionManager.add_client (m : ConnectionManager) (ws : WebSocket)
    (now : Nat) : ConnectionManager × String :=
  let client_id := clientId ws
  (⟨dictInsert client_id
      ⟨ws, now, now, client_id, 0⟩ m.clients, m.total_served + 1⟩,
   client_id)

/-- Embedding of `ConnectionManager.remove_client`: delete the entry when
present, no-op otherwise. -/
def ConnectionManager.remove_client (m : ConnectionManager)
    (client_id : String) : ConnectionManager :=
  if m.clients.any (fun p => decide (p.1 = client_id)) then
    ⟨dictRemove client_id m.clients, m.total_served⟩
  else m

/-- The statistics snapshot returned by `ConnectionManager.get_stats`. -/
structure Stats where
  connected : Nat
  total_served : Nat
  clients : List (String × Nat × Nat)
deriving Repr, DecidableEq

/-- Embedding of `ConnectionManager.get_stats`. -/
def ConnectionManager.get_stats (m : ConnectionManager) : Stats :=
  ⟨m.clients.length, m.total_served,
   m.clients.map (fun p => (p.2.address, p.2.connected_at, p.2.packets_sent))⟩

/-- The successful-send update applied to a client inside `broadcast`:
increment `packets_sent` and refresh `last_activity`. -/
def touch (now : Nat) (ci : ClientInfo) : ClientInfo :=
  { ci with packets_sent := ci.packets_sent + 1, last_activity := now }

/-- The first loop of `ConnectionManager.broadcast`: sweep over all
clients in order; a successful send (per the `sendFails` oracle) updates
the client, a failed send leaves it untouched and records its id in the
`failed_clients` list (in sweep order).  Returns the updated map and the
failed ids. -/
def broadcastSweep (sendFails : String → Bool) (now : Nat) :
    List (String × ClientInfo) → List (String × ClientInfo) × List String
  | [] => ([], [])
  | (client_id, client_info) :: rest =>
      let r := broadcastSweep sendFails now rest
      if sendFails client_id then
        ((client_id, client_info) :: r.1, client_id :: r.2)
      else ((client_id, touch now client_info) :: r.1, r.2)

/-- Embedding of `ConnectionManager.broadcast`: sweep all clients, then
remove each failed client via `remove_client`, only after the sweep has
finished. -/
def ConnectionManager.broadcast (m : ConnectionManager)
    (sendFails : String → Bool) (now : Nat) : ConnectionManager :=
  let r := broadcastSweep sendFails now m.clients
  r.2.foldl (fun acc client_id => acc.remove_client client_id)
    ⟨r.1, m.total_served⟩

/-- Embedding of `ConnectionManager.close_all`: attempt a close handshake
on every client (failures, per the `closeFails` oracle, are caught and
only logged), then clear the map unconditionally.  The second component
records, per client in iteration order, whether its close succeeded. -/
def ConnectionManager.close_all (m : ConnectionManager)
    (closeFails : String → Bool) (_reason : String) :
    ConnectionManager × List (String × Bool) :=
  (⟨[], m.total_served⟩, m.clients.map (fun p => (p.1, !closeFails p.1)))

/-! ## Audio capture (src/audio_capture.py)

Device discovery talks to the sounddevice library; its behaviour is
modelled by a probe oracle giving, per strategy and device index, the
outcome of `sd.InputStream(...)` construction followed by `.start()`.
The crucial detail kept from the source is that `self.stream` is assigned
the freshly constructed stream BEFORE `.start()` is called, so a probe
whose construction succeeds but whose start raises leaves that unstarted
stream behind in `self.stream`. -/

/-- The two discovery strategies of `initialize`. -/
inductive Strategy where
  | wasapi
  | stereoMix
deriving Repr, DecidableEq

/-- Outcome of one device probe: the `sd.InputStream` constructor raises
(`ctorFail`, nothing assigned), construction succeeds but `.start()`
raises (`startFail`, the unstarted stream stays assigned), or both
succeed (`success`). -/
inductive ProbeOutcome where
  | ctorFail
  | startFail
  | success
deriving Repr, DecidableEq

/-- An open (or half-open) `sd.InputStream` handle: the device index it
was opened on and whether `.start()` completed. -/
structure StreamHandle where
  device : Nat
  started : Bool
deriving Repr, DecidableEq

/-- One entry of `sd.query_devices()`: the fields the source reads. -/
structure Device where
  name : String
  max_input_channels : Nat
  max_output_channels : Nat
deriving Repr, DecidableEq

/-- The mutable state of `AudioCapture`.  `config` and `logger` are
passed separately where needed. -/
structure AudioCapture where
  stream : Option StreamHandle
  is_running : Bool
  device_name : String
deriving Repr, DecidableEq

/-- The state built by `AudioCapture.__init__`. -/
def AudioCapture.new : AudioCapture :=
  ⟨none, false, "Unknown"⟩

/-- Name lookup for `sd.query_devices(idx)`. -/
def deviceName (devices : List Device) (idx : Nat) : String :=
  (devices.getD idx ⟨"Unknown", 0, 0⟩).name

/-- One probe of a single device: the common body of `_try_wasapi` and of
one iteration of the loop in `_try_stereo_mix` (they differ only in the
`extra_settings` passed to sounddevice, which the oracle absorbs via the
strategy tag).  On `ctorFail` the state is untouched; on `startFail` the
unstarted stream remains assigned; on `success` the started stream is
assigned and the device name recorded, and True is returned. -/
def openStream (probe : Strategy → Nat → ProbeOutcome) (devices : List Device)
    (strat : Strategy) (c : AudioCapture) (idx : Nat) : AudioCapture × Bool :=
  match probe strat idx with
  | ProbeOutcome.ctorFail => (c, false)
  | ProbeOutcome.startFail =>
      ({ c with stream := some ⟨idx, false⟩ }, false)
  | ProbeOutcome.success =>
      ({ c with stream := some ⟨idx, true⟩,
                device_name := deviceName devices idx }, true)

/-- Embedding of `_try_wasapi` (a single-device probe). -/
def try_wasapi (probe : Strategy → Nat → ProbeOutcome)
    (devices : List Device) (c : AudioCapture) (idx : Nat) :
    AudioCapture × Bool :=
  openStream probe devices Strategy.wasapi c idx

/-- Try candidates in order and stop at the first success.  This is the
shape of both the `for idx in out_candidates` loop in `initialize` and
the loop inside `_try_stereo_mix`.  The third component is the trace of
probes actually attempted, in order, tagged with the strategy. -/
def probeLoop (step : AudioCapture → Nat → AudioCapture × Bool)
    (tag : Strategy) (c : AudioCapture) :
    List Nat → AudioCapture × Bool × List (Strategy × Nat)
  | [] => (c, false, [])
  | idx :: rest =>
      let s := step c idx
      if s.2 then (s.1, true, [(tag, idx)])
      else
        let r := probeLoop step tag s.1 rest
        (r.1, r.2.1, (tag, idx) :: r.2.2)

/-- Embedding of `_try_stereo_mix`: probe each candidate with a plain
input-capture open, first success wins. -/
def try_stereo_mix (probe : Strategy → Nat → ProbeOutcome)
    (devices : List Device) (c : AudioCapture) (candidates : List Nat) :
    AudioCapture × Bool × List (Strategy × Nat) :=
  probeLoop (openStream probe devices Strategy.stereoMix)
    Strategy.stereoMix c candidates

/-- The `out_candidates` list comprehension of `initialize`: indices of
devices with at least one output channel. -/
def out_candidates (devices : List Device) : List Nat :=
  (List.range devices.length).filter
    (fun i => 0 < (devices.getD i ⟨"Unknown", 0, 0⟩).max_output_channels)

/-- Substring containment on character lists, the semantics of the Python
`in` operator on strings. -/
def containsSub (pat : List Char) : List Char → Bool
  | [] => pat.isEmpty
  | c :: cs => pat.isPrefixOf (c :: cs) || containsSub pat cs

/-- The `stereo_candidates` list comprehension of `initialize`: indices of
devices whose lowercased name contains "stereo" or that have at least one
input channel. -/
def stereo_candidates (devices : List Device) : List Nat :=
  (List.range devices.length).filter
    (fun i =>
      let d := devices.getD i ⟨"Unknown", 0, 0⟩
      containsSub "stereo".data (strLower d.name).data
        || 0 < d.max_input_channels)

/-- Embedding of `AudioCapture.initialize`: try WASAPI loopback on every
output-capable device, then fall back to `_try_stereo_mix` on the stereo
candidates.  On the first success `is_running` is set and True returned;
if both strategies fail, False is returned and `is_running` is not
touched.  The trace of attempted probes is returned alongside. -/
def initializeCapture (probe : Strategy → Nat → ProbeOutcome)
    (devices : List Device) (c : AudioCapture) :
    AudioCapture × Bool × List (Strategy × Nat) :=
  let w := probeLoop (try_wasapi probe devices) Strategy.wasapi c
    (out_candidates devices)
  if w.2.1 then ({ w.1 with is_running := true }, true, w.2.2)
  else
    let s := try_stereo_mix probe devices w.1 (stereo_candidates devices)
    if s.2.1 then ({ s.1 with is_running := true }, true, w.2.2 ++ s.2.2)
    else (s.1, false, w.2.2 ++ s.2.2)

/-- Outcome of one `self.stream.read(...)` call: either it raises, or it
returns a frames array, flattened here to the list of its int16 samples
in memory order. -/
inductive ReadOutcome where
  | raises
  | ok (samples : List Int)

/-- The two little-endian bytes of one int16 sample, as produced by
`numpy.ndarray.tobytes`. -/
def int16Bytes (x : Int) : List Nat :=
  [(x % 65536).toNat % 256, (x % 65536).toNat / 256]

/-- Embedding of `AudioCapture.read_block`: None when the stream is unset
or not running; otherwise a raising read is caught and yields None, and a
successful read yields the bytes of the frames array. -/
def read_block (c : AudioCapture) (outcome : ReadOutcome) :
    Option (List Nat) :=
  if c.stream.isNone || !c.is_running then none
  else
    match outcome with
    | ReadOutcome.raises => none
    | ReadOutcome.ok samples => some (samples.map int16Bytes).flatten

/-- Embedding of `AudioCapture.stop`: when a stream is present, stop and
close it (exceptions there are caught; the `finally` block always clears
the handle and the running flag); when no stream is present, nothing
changes. -/
def AudioCapture.stop (c : AudioCapture) : AudioCapture :=
  match c.stream with
  | some _ => { c with stream := none, is_running := false }
  | none => c

/-- Embedding of `AudioCapture.reinitialize`: `stop` then `initialize`. -/
def reinitializeCapture (probe : Strategy → Nat → ProbeOutcome)
    (devices : List Device) (c : AudioCapture) :
    AudioCapture × Bool × List (Strategy × Nat) :=
  initializeCapture probe devices c.stop

/-- The snapshot returned by `AudioCapture.get_device_info`. -/
structure DeviceInfo where
  device : String
  sample_rate : Int
  channels : Int
  is_running : Bool
deriving Repr, DecidableEq

/-- Embedding of `AudioCapture.get_device_info`. -/
def get_device_info (c : AudioCapture) (config : ServerConfig) : DeviceInfo :=
  ⟨c.device_name, config.sample_rate, config.channels, c.is_running⟩

/-- The states an `AudioCapture` object can actually be in: the freshly
constructed state, and anything reachable through `initialize` (under any
environment) and `stop`.  `read_block` does not change the state and
`reinitialize` is the composition of the two constructors. -/
inductive Reachable : AudioCapture → Prop where
  | new : Reachable AudioCapture.new
  | step_init (probe : Strategy → Nat → ProbeOutcome)
      (devices : List Device) {c : AudioCapture} :
      Reachable c → Reachable (initializeCapture probe devices c).1
  | step_stop {c : AudioCapture} : Reachable c → Reachable c.stop

/-! ## Concrete values used by witnesses and counterexamples -/

/-- Whether a given probe attempt (strategy, index) succeeds. -/
def okProbe (probe : Strategy → Nat → ProbeOutcome) (a : Strategy × Nat) :
    Bool :=
  decide (probe a.1 a.2 = ProbeOutcome.success)

/-- A probe environment in which every WASAPI attempt constructs its
stream but fails to start it, and every Stereo Mix attempt fails at
construction: no probe ever succeeds. -/
def startFailProbe : Strategy → Nat → ProbeOutcome
  | Strategy.wasapi, _ => ProbeOutcome.startFail
  | Strategy.stereoMix, _ => ProbeOutcome.ctorFail

/-- A probe environment in which every attempt succeeds. -/
def allOkProbe : Strategy → Nat → ProbeOutcome :=
  fun _ _ => ProbeOutcome.success

/-- A sample client record for a peer at 1.2.3.4:5. -/
def dupInfo : ClientInfo := ⟨⟨"1.2.3.4", 5⟩, 0, 0, "1.2.3.4:5", 0⟩

/-- A registry already holding the peer 1.2.3.4:5. -/
def dupManager : ConnectionManager := ⟨[("1.2.3.4:5", dupInfo)], 3⟩

/-- The websocket whose derived client id collides with `dupManager`. -/
def dupSocket : WebSocket := ⟨"1.2.3.4", 5⟩

/-! ## Helper lemmas about the clients map -/

theorem clientKeys_nil : clientKeys [] = [] := rfl

theorem clientKeys_cons (p : String × ClientInfo)
    (l : List (String × ClientInfo)) :
    clientKeys (p :: l) = p.1 :: clientKeys l := rfl

theorem mem_clientKeys_of_mem {k : String} {v : ClientInfo}
    {l : List (String × ClientInfo)} (h : (k, v) ∈ l) :
    k ∈ clientKeys l :=
  List.mem_map_of_mem Prod.fst h

theorem dictInsert_self_mem (k : String) (v : ClientInfo) :
    ∀ l : List (String × ClientInfo), (k, v) ∈ dictInsert k v l := by
  intro l
  induction l with
  | nil => simp [dictInsert]
  | cons p rest ih =>
      obtain ⟨k0, v0⟩ := p
      by_cases h : k0 = k <;> simp [dictInsert, h, ih]

theorem dictInsert_length_of_mem {k : String} (v : ClientInfo)
    {l : List (String × ClientInfo)} (h : k ∈ clientKeys l) :
    (dictInsert k v l).length = l.length := by
  induction l with
  | nil => simp [clientKeys] at h
  | cons p rest ih =>
      obtain ⟨k0, v0⟩ := p
      rw [clientKeys_cons, List.mem_cons] at h
      by_cases hk : k0 = k
      · simp [dictInsert, hk]
      · have hr : k ∈ clientKeys rest := by
          rcases h with h | h
          · exact absurd h.symm hk
          · exact h
        simp [dictInsert, hk, ih hr]

theorem dictInsert_val_unique {k : String} {v ci : ClientInfo}
    {l : List (String × ClientInfo)} (hnd : (clientKeys l).Nodup)
    (h : (k, ci) ∈ dictInsert k v l) : ci = v := by
  induction l with
  | nil =>
      simp [dictInsert] at h
      exact h
  | cons p rest ih =>
      obtain ⟨k0, v0⟩ := p
      rw [clientKeys_cons, List.nodup_cons] at hnd
      by_cases hk : k0 = k
      · subst hk
        rw [dictInsert, if_pos rfl, List.mem_cons] at h
        rcases h with h | h
        · exact (Prod.ext_iff.mp h).2
        · exact absurd (mem_clientKeys_of_mem h) hnd.1
      · rw [dictInsert, if_neg hk, List.mem_cons] at h
        rcases h with h | h
        · exact absurd (congrArg Prod.fst h).symm hk
        · exact ih hnd.2 h

theorem dictInsert_of_not_mem (k : String) (v : ClientInfo)
    {l : List (String × ClientInfo)} (h : k ∉ clientKeys l) :
    dictInsert k v l = l ++ [(k, v)] := by
  induction l with
  | nil => rfl
  | cons p rest ih =>
      obtain ⟨k0, v0⟩ := p
      rw [clientKeys_cons, List.mem_cons] at h
      push_neg at h
      rw [dictInsert, if_neg (Ne.symm h.1), ih h.2]
      rfl

theorem dictRemove_of_not_mem {k : String}
    {l : List (String × ClientInfo)} (h : k ∉ clientKeys l) :
    dictRemove k l = l := by
  induction l with
  | nil => rfl
  | cons p rest ih =>
      obtain ⟨k0, v0⟩ := p
      rw [clientKeys_cons, List.mem_cons] at h
      push_neg at h
      rw [dictRemove, if_neg (Ne.symm h.1), ih h.2]

theorem dictRemove_append_self {k : String} (v : ClientInfo)
    {l : List (String × ClientInfo)} (h : k ∉ clientKeys l) :
    dictRemove k (l ++ [(k, v)]) = l := by
  induction l with
  | nil => simp [dictRemove]
  | cons p rest ih =>
      obtain ⟨k0, v0⟩ := p
      rw [clientKeys_cons, List.mem_cons] at h
      push_neg at h
      rw [List.cons_append, dictRemove, if_neg (Ne.symm h.1), ih h.2]

theorem dictRemove_length {k : String}
    {l : List (String × ClientInfo)} (h : k ∈ clientKeys l) :
    (dictRemove k l).length + 1 = l.length := by
  induction l with
  | nil => simp [clientKeys] at h
  | cons p rest ih =>
      obtain ⟨k0, v0⟩ := p
      rw [clientKeys_cons, List.mem_cons] at h
      by_cases hk : k0 = k
      · simp [dictRemove, hk]
      · have hr : k ∈ clientKeys rest := by
          rcases h with h | h
          · exact absurd h.symm hk
          · exact h
        simp [dictRemove, hk, ih hr]

theorem mem_dictRemove_of_mem {id k : String} {ci : ClientInfo}
    {l : List (String × ClientInfo)} (h : (id, ci) ∈ l) (hne : id ≠ k) :
    (id, ci) ∈ dictRemove k l := by
  induction l with
  | nil => simp at h
  | cons p rest ih =>
      obtain ⟨k0, v0⟩ := p
      rw [List.mem_cons] at h
      by_cases hk : k0 = k
      · rw [dictRemove, if_pos hk]
        rcases h with h | h
        · exact absurd ((congrArg Prod.fst h).trans hk) hne
        · exact h
      · rw [dictRemove, if_neg hk, List.mem_cons]
        rcases h with h | h
        · exact Or.inl h
        · exact Or.inr (ih h)

theorem not_mem_dictRemove {k : String}
    {l : List (String × ClientInfo)} (hnd : (clientKeys l).Nodup)
    (ci : ClientInfo) : (k, ci) ∉ dictRemove k l := by
  induction l with
  | nil => simp [dictRemove]
  | cons p rest ih =>
      obtain ⟨k0, v0⟩ := p
      rw [clientKeys_cons, List.nodup_cons] at hnd
      by_cases hk : k0 = k
      · subst hk
        rw [dictRemove, if_pos rfl]
        intro hmem
        exact hnd.1 (mem_clientKeys_of_mem hmem)
      · rw [dictRemove, if_neg hk, List.mem_cons]
        rintro (h | h)
        · exact hk (congrArg Prod.fst h).symm
        · exact ih hnd.2 h

theorem remove_client_clients (m : ConnectionManager) (id : String) :
    (m.remove_client id).clients = dictRemove id m.clients := by
  rw [ConnectionManager.remove_client]
  by_cases h : m.clients.any (fun p => decide (p.1 = id))
  · rw [if_pos h]
  · rw [if_neg h]
    have hmem : id ∉ clientKeys m.clients := by
      intro hk
      rcases List.mem_map.mp hk with ⟨p, hp, hfst⟩
      exact h (List.any_eq_true.mpr ⟨p, hp, by simp [hfst]⟩)
    rw [dictRemove_of_not_mem hmem]

theorem remove_client_total (m : ConnectionManager) (id : String) :
    (m.remove_client id).total_served = m.total_served := by
  rw [ConnectionManager.remove_client]
  by_cases h : m.clients.any (fun p => decide (p.1 = id)) <;> simp [h]

/-! ## Helper lemmas about the broadcast sweep -/

theorem broadcastSweep_keys (sendFails : String → Bool) (now : Nat) :
    ∀ l : List (String × ClientInfo),
      clientKeys (broadcastSweep sendFails now l).1 = clientKeys l := by
  intro l
  induction l with
  | nil => rfl
  | cons p rest ih =>
      obtain ⟨k0, v0⟩ := p
      by_cases h : sendFails k0 <;>
        simp [broadcastSweep, h, clientKeys_cons, ih]

theorem broadcastSweep_failed (sendFails : String → Bool) (now : Nat) :
    ∀ l : List (String × ClientInfo),
      (broadcastSweep sendFails now l).2 = (clientKeys l).filter sendFails := by
  intro l
  induction l with
  | nil => rfl
  | cons p rest ih =>
      obtain ⟨k0, v0⟩ := p
      by_cases h : sendFails k0 <;>
        simp [broadcastSweep, h, clientKeys_cons, ih, List.filter_cons]

theorem mem_broadcastSweep_of_ok {sendFails : String → Bool} {now : Nat}
    {id : String} {ci : ClientInfo} {l : List (String × ClientInfo)}
    (h : (id, ci) ∈ l) (hok : sendFails id = false) :
    (id, touch now ci) ∈ (broadcastSweep sendFails now l).1 := by
  induction l with
  | nil => simp at h
  | cons p rest ih =>
      obtain ⟨k0, v0⟩ := p
      rw [List.mem_cons] at h
      by_cases hf : sendFails k0
      · rcases h with h | h
        · have hid : id = k0 := congrArg Prod.fst h
          rw [hid, hf] at hok
          exact absurd hok (by simp)
        · simp [broadcastSweep, hf]
          exact Or.inr (ih h)
      · rcases h with h | h
        · obtain ⟨h1, h2⟩ := Prod.ext_iff.mp h
          simp at h1 h2
          subst h1; subst h2
          simp [broadcastSweep, hf]
        · simp [broadcastSweep, hf]
          exact Or.inr (ih h)

theorem filter_eq_single {k : String} {sendFails : String → Bool} :
    ∀ {l : List String}, l.Nodup → k ∈ l →
      (∀ x ∈ l, sendFails x = true ↔ x = k) →
      l.filter sendFails = [k] := by
  intro l
  induction l with
  | nil => intro _ h; simp at h
  | cons a rest ih =>
      intro hnd hk hiff
      rw [List.nodup_cons] at hnd
      rw [List.mem_cons] at hk
      rcases hk with hk | hk
      · subst hk
        have ha : sendFails k = true := (hiff k (by simp)).mpr rfl
        have hrest : rest.filter sendFails = [] := by
          rw [List.filter_eq_nil_iff]
          intro x hx
          intro hfx
          have := (hiff x (List.mem_cons_of_mem _ hx)).mp hfx
          rw [this] at hx
          exact hnd.1 hx
        rw [List.filter_cons, if_pos ha, hrest]
      · have hne : a ≠ k := fun h => hnd.1 (h ▸ hk)
        have ha : sendFails a = false := by
          rcases Bool.eq_false_or_eq_true (sendFails a) with h | h
          · exact absurd ((hiff a (by simp)).mp h) hne
          · exact h
        rw [List.filter_cons, if_neg (by simp [ha]), ih hnd.2 hk
          (fun x hx => hiff x (List.mem_cons_of_mem _ hx))]

/-! ## Helper lemmas about device probing -/

theorem openStream_snd (probe : Strategy → Nat → ProbeOutcome)
    (devices : List Device) (strat : Strategy) (c : AudioCapture)
    (idx : Nat) :
    (openStream probe devices strat c idx).2 = okProbe probe (strat, idx) := by
  cases h : probe strat idx <;> simp [openStream, okProbe, h]

theorem openStream_running (probe : Strategy → Nat → ProbeOutcome)
    (devices : List Device) (strat : Strategy) (c : AudioCapture)
    (idx : Nat) :
    (openStream probe devices strat c idx).1.is_running = c.is_running := by
  cases h : probe strat idx <;> simp [openStream, h]

theorem openStream_success_stream (probe : Strategy → Nat → ProbeOutcome)
    (devices : List Device) (strat : Strategy) (c : AudioCapture) (idx : Nat)
    (h : (openStream probe devices strat c idx).2 = true) :
    (openStream probe devices strat c idx).1.stream = some ⟨idx, true⟩ := by
  cases hp : probe strat idx <;> simp [openStream, hp] at h ⊢

theorem openStream_fail_stream (probe : Strategy → Nat → ProbeOutcome)
    (devices : List Device) (strat : Strategy) (c : AudioCapture) (idx : Nat)
    (h : (openStream probe devices strat c idx).2 = false) :
    (openStream probe devices strat c idx).1.stream = c.stream ∨
      ∃ hs : StreamHandle,
        (openStream probe devices strat c idx).1.stream = some hs ∧
          hs.started = false := by
  cases hp : probe strat idx <;> simp [openStream, hp] at h ⊢

theorem probeLoop_running
    (step : AudioCapture → Nat → AudioCapture × Bool) (tag : Strategy)
    (hstep : ∀ c idx, (step c idx).1.is_running = c.is_running) :
    ∀ (l : List Nat) (c : AudioCapture),
      (probeLoop step tag c l).1.is_running = c.is_running := by
  intro l
  induction l with
  | nil => intro c; rfl
  | cons idx rest ih =>
      intro c
      by_cases h : (step c idx).2 <;>
        simp [probeLoop, h, ih, hstep]

theorem probeLoop_success_stream
    (step : AudioCapture → Nat → AudioCapture × Bool) (tag : Strategy)
    (hstep : ∀ c idx, (step c idx).2 = true →
      ∃ hs : StreamHandle, (step c idx).1.stream = some hs) :
    ∀ (l : List Nat) (c : AudioCapture),
      (probeLoop step tag c l).2.1 = true →
        ∃ hs : StreamHandle, (probeLoop step tag c l).1.stream = some hs := by
  intro l
  induction l with
  | nil => intro c h; simp [probeLoop] at h
  | cons idx rest ih =>
      intro c h
      by_cases hs : (step c idx).2
      · simp [probeLoop, hs]
        exact hstep c idx hs
      · simp [probeLoop, hs] at h ⊢
        exact ih _ h

theorem probeLoop_fail_stream
    (step : AudioCapture → Nat → AudioCapture × Bool) (tag : Strategy)
    (hstep : ∀ c idx, (step c idx).2 = false →
      (step c idx).1.stream = c.stream ∨
        ∃ hs : StreamHandle, (step c idx).1.stream = some hs ∧
          hs.started = false) :
    ∀ (l : List Nat) (c : AudioCapture),
      (probeLoop step tag c l).2.1 = false →
        (probeLoop step tag c l).1.stream = c.stream ∨
          ∃ hs : StreamHandle,
            (probeLoop step tag c l).1.stream = some hs ∧
              hs.started = false := by
  intro l
  induction l with
  | nil => intro c _; exact Or.inl rfl
  | cons idx rest ih =>
      intro c h
      by_cases hs : (step c idx).2
      · simp [probeLoop, hs] at h
      · simp only [probeLoop, hs, if_neg, Bool.false_eq_true, if_false] at h ⊢
        rcases ih (step c idx).1 h with h1 | h1
        · rcases hstep c idx (by simp [hs]) with h2 | h2
          · exact Or.inl (h1.trans h2)
          · exact Or.inr (h1 ▸ h2)
        · exact Or.inr h1

theorem probeLoop_fail_trace
    (step : AudioCapture → Nat → AudioCapture × Bool) (tag : Strategy)
    (ok : Strategy × Nat → Bool)
    (hstep : ∀ c idx, (step c idx).2 = ok (tag, idx)) :
    ∀ (l : List Nat) (c : AudioCapture),
      (probeLoop step tag c l).2.1 = false →
        ∀ a ∈ (probeLoop step tag c l).2.2, ok a = false := by
  intro l
  induction l with
  | nil => intro c _ a ha; simp [probeLoop] at ha
  | cons idx rest ih =>
      intro c h a ha
      by_cases hs : (step c idx).2
      · simp [probeLoop, hs] at h
      · simp only [probeLoop, hs, Bool.false_eq_true, if_false,
          List.mem_cons] at h ha
        rcases ha with ha | ha
        · subst ha
          rw [← hstep c idx]
          simp [hs]
        · exact ih _ h a ha

theorem probeLoop_success_trace
    (step : AudioCapture → Nat → AudioCapture × Bool) (tag : Strategy)
    (ok : Strategy × Nat → Bool)
    (hstep : ∀ c idx, (step c idx).2 = ok (tag, idx)) :
    ∀ (l : List Nat) (c : AudioCapture),
      (probeLoop step tag c l).2.1 = true →
        ∃ t a, (probeLoop step tag c l).2.2 = t ++ [a] ∧
          (∀ b ∈ t, ok b = false) ∧ ok a = true := by
  intro l
  induction l with
  | nil => intro c h; simp [probeLoop] at h
  | cons idx rest ih =>
      intro c h
      by_cases hs : (step c idx).2
      · refine ⟨[], (tag, idx), ?_, ?_, ?_⟩
        · simp [probeLoop, hs]
        · intro b hb; simp at hb
        · rw [← hstep c idx]; simp [hs]
      · simp only [probeLoop, hs, Bool.false_eq_true, if_false] at h ⊢
        obtain ⟨t, a, htr, ht, ha⟩ := ih (step c idx).1 h
        refine ⟨(tag, idx) :: t, a, ?_, ?_, ha⟩
        · rw [htr]; rfl
        · intro b hb
          rcases List.mem_cons.mp hb with hb | hb
          · subst hb
            rw [← hstep c idx]; simp [hs]
          · exact ht b hb

theorem probeLoop_const_false
    (step : AudioCapture → Nat → AudioCapture × Bool) (tag : Strategy)
    (hstep : ∀ c idx, (step c idx).2 = false) :
    ∀ (l : List Nat) (c : AudioCapture),
      (probeLoop step tag c l).2.1 = false := by
  intro l
  induction l with
  | nil => intro c; rfl
  | cons idx rest ih =>
      intro c
      simp [probeLoop, hstep c idx, ih]

theorem try_wasapi_snd (probe : Strategy → Nat → ProbeOutcome)
    (devices : List Device) (c : AudioCapture) (idx : Nat) :
    (try_wasapi probe devices c idx).2 =
      okProbe probe (Strategy.wasapi, idx) :=
  openStream_snd probe devices Strategy.wasapi c idx

theorem initializeCapture_success_state
    (probe : Strategy → Nat → ProbeOutcome) (devices : List Device)
    (c : AudioCapture)
    (h : (initializeCapture probe devices c).2.1 = true) :
    (initializeCapture probe devices c).1.is_running = true ∧
      ∃ hs : StreamHandle,
        (initializeCapture probe devices c).1.stream = some hs := by
  by_cases hw : (probeLoop (try_wasapi probe devices) Strategy.wasapi c
      (out_candidates devices)).2.1
  · have hstream := probeLoop_success_stream (try_wasapi probe devices)
      Strategy.wasapi
      (fun c0 idx h0 => ⟨⟨idx, true⟩,
        openStream_success_stream probe devices Strategy.wasapi c0 idx h0⟩)
      (out_candidates devices) c hw
    simp only [initializeCapture, hw, if_true]
    exact ⟨trivial, hstream⟩
  · by_cases hs : (try_stereo_mix probe devices
        (probeLoop (try_wasapi probe devices) Strategy.wasapi c
          (out_candidates devices)).1 (stereo_candidates devices)).2.1
    · have hstream := probeLoop_success_stream
        (openStream probe devices Strategy.stereoMix) Strategy.stereoMix
        (fun c0 idx h0 => ⟨⟨idx, true⟩,
          openStream_success_stream probe devices Strategy.stereoMix c0
            idx h0⟩)
        (stereo_candidates devices) _ hs
      simp only [initializeCapture, hw, Bool.false_eq_true, if_false,
        try_stereo_mix] at h ⊢
      simp only [try_stereo_mix] at hs
      simp only [hs, if_true]
      exact ⟨trivial, hstream⟩
    · exfalso
      simp only [initializeCapture, hw, Bool.false_eq_true, if_false] at h
      simp only [hs, Bool.false_eq_true, if_false] at h

theorem initializeCapture_fail_state
    (probe : Strategy → Nat → ProbeOutcome) (devices : List Device)
    (c : AudioCapture)
    (h : (initializeCapture probe devices c).2.1 = false) :
    (initializeCapture probe devices c).1.is_running = c.is_running ∧
      ((initializeCapture probe devices c).1.stream = c.stream ∨
        ∃ hs : StreamHandle,
          (initializeCapture probe devices c).1.stream = some hs ∧
            hs.started = false) := by
  by_cases hw : (probeLoop (try_wasapi probe devices) Strategy.wasapi c
      (out_candidates devices)).2.1
  · exfalso
    simp only [initializeCapture, hw, if_true] at h
    exact Bool.noConfusion h
  · by_cases hs : (try_stereo_mix probe devices
        (probeLoop (try_wasapi probe devices) Strategy.wasapi c
          (out_candidates devices)).1 (stereo_candidates devices)).2.1
    · exfalso
      simp only [initializeCapture, hw, Bool.false_eq_true, if_false] at h
      simp only [hs, if_true] at h
      exact Bool.noConfusion h
    · simp only [initializeCapture, hw, Bool.false_eq_true, if_false,
        hs, if_false]
      have hrun1 := probeLoop_running (try_wasapi probe devices)
        Strategy.wasapi
        (fun c0 idx =>
          openStream_running probe devices Strategy.wasapi c0 idx)
        (out_candidates devices) c
      have hrun2 := probeLoop_running
        (openStream probe devices Strategy.stereoMix) Strategy.stereoMix
        (fun c0 idx =>
          openStream_running probe devices Strategy.stereoMix c0 idx)
        (stereo_candidates devices)
        (probeLoop (try_wasapi probe devices) Strategy.wasapi c
          (out_candidates devices)).1
      have hstr1 := probeLoop_fail_stream (try_wasapi probe devices)
        Strategy.wasapi
        (fun c0 idx h0 =>
          openStream_fail_stream probe devices Strategy.wasapi c0 idx h0)
        (out_candidates devices) c (by simpa using hw)
      have hs0 : (probeLoop (openStream probe devices Strategy.stereoMix)
          Strategy.stereoMix
          (probeLoop (try_wasapi probe devices) Strategy.wasapi c
            (out_candidates devices)).1
          (stereo_candidates devices)).2.1 = false := by
        simpa [try_stereo_mix] using hs
      have hstr2 := probeLoop_fail_stream
        (openStream probe devices Strategy.stereoMix) Strategy.stereoMix
        (fun c0 idx h0 =>
          openStream_fail_stream probe devices Strategy.stereoMix c0
            idx h0)
        (stereo_candidates devices)
        (probeLoop (try_wasapi probe devices) Strategy.wasapi c
          (out_candidates devices)).1 hs0
      constructor
      · simp only [try_stereo_mix]
        rw [hrun2, hrun1]
      · simp only [try_stereo_mix]
        rcases hstr2 with h2 | h2
        · rcases hstr1 with h1 | h1
          · exact Or.inl (h2.trans h1)
          · exact Or.inr (h2 ▸ h1)
        · exact Or.inr h2

theorem initializeCapture_no_devices
    (probe : Strategy → Nat → ProbeOutcome) (c : AudioCapture) :
    initializeCapture probe [] c = (c, false, []) := rfl

/-- Reachability invariant: whenever the stream handle is absent, the
running flag is down.  (The converse is false: a failed probe can leave a
half-open handle with the flag down.) -/
theorem reachable_stream_none_not_running {c : AudioCapture}
    (h : Reachable c) : c.stream = none → c.is_running = false := by
  induction h with
  | new => intro _; rfl
  | step_init probe devices hc ih =>
      intro hnone
      rename_i c0
      by_cases hres : (initializeCapture probe devices c0).2.1
      · obtain ⟨-, hs, hstream⟩ :=
          initializeCapture_success_state probe devices c0 hres
        rw [hstream] at hnone
        exact absurd hnone (by simp)
      · obtain ⟨hrun, hstream⟩ := initializeCapture_fail_state probe
          devices c0 (by simpa using hres)
        rcases hstream with h1 | ⟨hs, h1, -⟩
        · rw [hrun]
          exact ih (h1 ▸ hnone)
        · rw [h1] at hnone
          exact absurd hnone (by simp)
  | step_stop hc ih =>
      rename_i c0
      intro hnone
      rw [AudioCapture.stop] at hnone ⊢
      cases hstr : c0.stream with
      | some s => simp [hstr]
      | none => simp [hstr] at hnone ⊢; exact ih hstr

/-! ## Claim theorems -/

/-- Claim C2: for every registry state, every close-failure oracle and
every reason string, after `close_all` the registry is empty
(connected_count is 0); a close is attempted on every session, per-session
close failures are absorbed by the oracle-total model (nothing
propagates), and `total_served` is untouched. -/
theorem close_all_empties_registry (m : ConnectionManager)
    (closeFails : String → Bool) (reason : String) :
    (m.close_all closeFails reason).1.get_stats.connected = 0 ∧
      (m.close_all closeFails reason).1.clients = [] ∧
      ((m.close_all closeFails reason).2.map Prod.fst =
        clientKeys m.clients) ∧
      (m.close_all closeFails reason).1.total_served = m.total_served := by
  refine ⟨rfl, rfl, ?_, rfl⟩
  simp [ConnectionManager.close_all, clientKeys]

/-- Claim C8: with zero enumerated device candidates, `initialize` returns
failure, and `get_device_info` on the resulting state reports
is_running = false (the capture was not running beforehand, as on a fresh
or stopped object). -/
theorem init_zero_candidates (probe : Strategy → Nat → ProbeOutcome)
    (c : AudioCapture) (config : ServerConfig)
    (h : c.is_running = false) :
    (initializeCapture probe [] c).2.1 = false ∧
      (get_device_info (initializeCapture probe [] c).1 config).is_running
        = false := by
  rw [initializeCapture_no_devices]
  exact ⟨rfl, h⟩

/-- Witness for C8 at a fresh capture object. -/
theorem init_zero_candidates_witness :
    (initializeCapture allOkProbe [] AudioCapture.new).2.1 = false ∧
      (get_device_info (initializeCapture allOkProbe [] AudioCapture.new).1
        {}).is_running = false :=
  init_zero_candidates allOkProbe AudioCapture.new {} rfl

/-- Claim C7: `stop` is idempotent on every reachable state (including
the never-initialized one): a second `stop` changes nothing, and after a
`stop` the capture is not running and holds no stream handle.  The model
of `stop` is total: the stop/close exceptions of the underlying stream
are caught in the source and the `finally` block runs regardless. -/
theorem stop_idempotent (c : AudioCapture) (h : Reachable c) :
    c.stop.stop = c.stop ∧ c.stop.stream = none ∧
      c.stop.is_running = false := by
  have hinv := reachable_stream_none_not_running h
  cases hstr : c.stream with
  | some s =>
      refine ⟨?_, ?_, ?_⟩ <;> simp [AudioCapture.stop, hstr]
  | none =>
      have hc : c.stop = c := by simp [AudioCapture.stop, hstr]
      rw [hc]
      exact ⟨hc, hstr, hinv hstr⟩

/-- Witness for C7 at the never-initialized state. -/
theorem stop_idempotent_witness :
    AudioCapture.new.stop.stop = AudioCapture.new.stop ∧
      AudioCapture.new.stop.stream = none ∧
      AudioCapture.new.stop.is_running = false :=
  stop_idempotent AudioCapture.new Reachable.new

/-- Every validated configuration satisfies the CaptureConfig invariant on
sample rate and block size. -/
theorem validate_config_bounds (config : ServerConfig) :
    (validate_config config).sample_rate ∈ valid_sample_rates ∧
      512 ≤ (validate_config config).block_size ∧
      (validate_config config).block_size ≤ 4096 := by
  simp only [validate_config]
  split_ifs with h1 h2 h3 h4 h5 <;> simp_all [valid_sample_rates]

/-- Claim C9: validation enforces the CaptureConfig invariant
(sample_rate in 22050/44100/48000, block_size in [512, 4096]); a field
violating it is replaced by its default (44100 resp. 1024) rather than
rejected; and every configuration returned by `load_config`, whatever the
file state, satisfies the invariant. -/
theorem config_validation_invariant (config : ServerConfig) :
    ((validate_config config).sample_rate ∈ valid_sample_rates ∧
      512 ≤ (validate_config config).block_size ∧
      (validate_config config).block_size ≤ 4096) ∧
    (config.sample_rate ∉ valid_sample_rates →
      (validate_config config).sample_rate = 44100) ∧
    (¬(512 ≤ config.block_size ∧ config.block_size ≤ 4096) →
      (validate_config config).block_size = 1024) ∧
    ∀ f : ConfigFile,
      (load_config f).sample_rate ∈ valid_sample_rates ∧
        512 ≤ (load_config f).block_size ∧
        (load_config f).block_size ≤ 4096 := by
  have hdef : (config.sample_rate ∉ valid_sample_rates →
      (validate_config config).sample_rate = 44100) ∧
      (¬(512 ≤ config.block_size ∧ config.block_size ≤ 4096) →
        (validate_config config).block_size = 1024) := by
    simp only [validate_config]
    split_ifs with h1 h2 h3 h4 h5 <;> simp_all
  refine ⟨validate_config_bounds config, hdef.1, hdef.2, ?_⟩
  intro f
  cases f with
  | missing => exact ⟨by decide, by decide, by decide⟩
  | invalidJson => exact ⟨by decide, by decide, by decide⟩
  | readError => exact ⟨by decide, by decide, by decide⟩
  | parsed data => exact validate_config_bounds data

/-- Witness for C9 at a configuration with both fields invalid. -/
theorem config_validation_invariant_witness :
    ((validate_config { sample_rate := 999, block_size := 9999
        }).sample_rate ∈ valid_sample_rates ∧
      512 ≤ (validate_config { sample_rate := 999, block_size := 9999
        }).block_size ∧
      (validate_config { sample_rate := 999, block_size := 9999
        }).block_size ≤ 4096) ∧
    ((999 : Int) ∉ valid_sample_rates →
      (validate_config { sample_rate := 999, block_size := 9999
        }).sample_rate = 44100) ∧
    (¬((512 : Int) ≤ 9999 ∧ (9999 : Int) ≤ 4096) →
      (validate_config { sample_rate := 999, block_size := 9999
        }).block_size = 1024) ∧
    ∀ f : ConfigFile,
      (load_config f).sample_rate ∈ valid_sample_rates ∧
        512 ≤ (load_config f).block_size ∧
        (load_config f).block_size ≤ 4096 :=
  config_validation_invariant { sample_rate := 999, block_size := 9999 }

/-- Claim C6: whenever `initialize` succeeds, the device is marked
running, the successful probe is the last probe attempted (nothing is
probed after the first success, in either strategy), and every earlier
probe had failed — the first successful candidate wins. -/
theorem first_success_wins
    (probe : Strategy → Nat → ProbeOutcome) (devices : List Device)
    (c : AudioCapture)
    (h : (initializeCapture probe devices c).2.1 = true) :
    (initializeCapture probe devices c).1.is_running = true ∧
    ∃ t a, (initializeCapture probe devices c).2.2 = t ++ [a] ∧
      (∀ b ∈ t, probe b.1 b.2 ≠ ProbeOutcome.success) ∧
      probe a.1 a.2 = ProbeOutcome.success := by
  refine ⟨(initializeCapture_success_state probe devices c h).1, ?_⟩
  by_cases hw : (probeLoop (try_wasapi probe devices) Strategy.wasapi c
      (out_candidates devices)).2.1
  · obtain ⟨t, a, htr, ht, ha⟩ := probeLoop_success_trace
      (try_wasapi probe devices) Strategy.wasapi (okProbe probe)
      (fun c0 idx => try_wasapi_snd probe devices c0 idx)
      (out_candidates devices) c hw
    refine ⟨t, a, ?_, ?_, ?_⟩
    · simp only [initializeCapture, hw, if_true]
      exact htr
    · intro b hb
      simpa [okProbe] using ht b hb
    · simpa [okProbe] using ha
  · by_cases hs : (probeLoop (openStream probe devices Strategy.stereoMix)
        Strategy.stereoMix (probeLoop (try_wasapi probe devices)
          Strategy.wasapi c (out_candidates devices)).1
        (stereo_candidates devices)).2.1
    · obtain ⟨t, a, htr, ht, ha⟩ := probeLoop_success_trace
        (openStream probe devices Strategy.stereoMix) Strategy.stereoMix
        (okProbe probe)
        (fun c0 idx =>
          openStream_snd probe devices Strategy.stereoMix c0 idx)
        (stereo_candidates devices) _ hs
      have hwt := probeLoop_fail_trace (try_wasapi probe devices)
        Strategy.wasapi (okProbe probe)
        (fun c0 idx => try_wasapi_snd probe devices c0 idx)
        (out_candidates devices) c (by simpa using hw)
      refine ⟨(probeLoop (try_wasapi probe devices) Strategy.wasapi c
          (out_candidates devices)).2.2 ++ t, a, ?_, ?_, ?_⟩
      · simp only [initializeCapture, try_stereo_mix, hw,
          Bool.false_eq_true, if_false, hs, if_true]
        rw [htr, List.append_assoc]
      · intro b hb
        rcases List.mem_append.mp hb with hb | hb
        · simpa [okProbe] using hwt b hb
        · simpa [okProbe] using ht b hb
      · simpa [okProbe] using ha
    · exfalso
      simp only [initializeCapture, try_stereo_mix, hw,
        Bool.false_eq_true, if_false, hs] at h

/-- Witness for C6: with two output-capable devices and a probe oracle
that always succeeds, initialization succeeds on the very first WASAPI
candidate and probes nothing else. -/
theorem first_success_wins_witness :
    (initializeCapture allOkProbe
        [⟨"Speakers", 0, 2⟩, ⟨"Other", 0, 2⟩] AudioCapture.new).1.is_running
      = true ∧
    ∃ t a, (initializeCapture allOkProbe
        [⟨"Speakers", 0, 2⟩, ⟨"Other", 0, 2⟩] AudioCapture.new).2.2 =
        t ++ [a] ∧
      (∀ b ∈ t, allOkProbe b.1 b.2 ≠ ProbeOutcome.success) ∧
      allOkProbe a.1 a.2 = ProbeOutcome.success :=
  first_success_wins allOkProbe [⟨"Speakers", 0, 2⟩, ⟨"Other", 0, 2⟩]
    AudioCapture.new (by decide)

/-- Claim C3 counterexample: an environment with one output-capable
device whose WASAPI probe constructs its stream but fails on start (and
whose fallback probes all fail).  No candidate succeeds and `initialize`
returns failure, yet the stream field of the resulting state is NOT
empty: the half-open, never-started handle of device 0 is retained,
because the source assigns `self.stream` before calling `.start()`. -/
theorem init_failure_retains_handle_ce :
    (∀ s i, startFailProbe s i ≠ ProbeOutcome.success) ∧
    (initializeCapture startFailProbe [⟨"Speakers", 0, 2⟩]
        AudioCapture.new).2.1 = false ∧
    (initializeCapture startFailProbe [⟨"Speakers", 0, 2⟩]
        AudioCapture.new).1.is_running = false ∧
    (initializeCapture startFailProbe [⟨"Speakers", 0, 2⟩]
        AudioCapture.new).1.stream = some ⟨0, false⟩ := by
  refine ⟨?_, by decide, by decide, by decide⟩
  intro s i
  cases s <;> simp [startFailProbe]

/-- Claim C3 as amended: if no candidate succeeds under either strategy,
`initialize` returns failure and leaves the running flag down (the state
before the call being not running), and the stream field either keeps its
previous value or holds a half-open handle whose start never completed —
but it need not be empty. -/
theorem init_all_fail_uninitialized
    (probe : Strategy → Nat → ProbeOutcome) (devices : List Device)
    (c : AudioCapture)
    (hfail : ∀ s i, probe s i ≠ ProbeOutcome.success)
    (hrun : c.is_running = false) :
    (initializeCapture probe devices c).2.1 = false ∧
      (initializeCapture probe devices c).1.is_running = false ∧
      ((initializeCapture probe devices c).1.stream = c.stream ∨
        ∃ hs : StreamHandle,
          (initializeCapture probe devices c).1.stream = some hs ∧
            hs.started = false) := by
  have hwstep : ∀ (c0 : AudioCapture) (idx : Nat),
      (try_wasapi probe devices c0 idx).2 = false := by
    intro c0 idx
    rw [try_wasapi_snd]
    simp [okProbe, hfail]
  have hsstep : ∀ (c0 : AudioCapture) (idx : Nat),
      (openStream probe devices Strategy.stereoMix c0 idx).2 = false := by
    intro c0 idx
    rw [openStream_snd]
    simp [okProbe, hfail]
  have h1 := probeLoop_const_false (try_wasapi probe devices)
    Strategy.wasapi hwstep (out_candidates devices) c
  have h2 := probeLoop_const_false
    (openStream probe devices Strategy.stereoMix) Strategy.stereoMix hsstep
    (stereo_candidates devices)
    (probeLoop (try_wasapi probe devices) Strategy.wasapi c
      (out_candidates devices)).1
  have hres : (initializeCapture probe devices c).2.1 = false := by
    simp only [initializeCapture, try_stereo_mix, h1, h2,
      Bool.false_eq_true, if_false]
  obtain ⟨hrun2, hstr⟩ :=
    initializeCapture_fail_state probe devices c hres
  exact ⟨hres, hrun2.trans hrun, hstr⟩

/-- Witness for the amended C3 in the counterexample environment. -/
theorem init_all_fail_uninitialized_witness :
    (initializeCapture startFailProbe [⟨"Speakers", 0, 2⟩]
        AudioCapture.new).2.1 = false ∧
      (initializeCapture startFailProbe [⟨"Speakers", 0, 2⟩]
          AudioCapture.new).1.is_running = false ∧
      ((initializeCapture startFailProbe [⟨"Speakers", 0, 2⟩]
            AudioCapture.new).1.stream = AudioCapture.new.stream ∨
        ∃ hs : StreamHandle,
          (initializeCapture startFailProbe [⟨"Speakers", 0, 2⟩]
              AudioCapture.new).1.stream = some hs ∧
            hs.started = false) :=
  init_all_fail_uninitialized startFailProbe [⟨"Speakers", 0, 2⟩]
    AudioCapture.new
    (fun s i => by cases s <;> simp [startFailProbe]) rfl

/-- Each int16 sample contributes exactly two bytes. -/
theorem int16Bytes_flatten_length (samples : List Int) :
    ((samples.map int16Bytes).flatten).length = 2 * samples.length := by
  induction samples with
  | nil => rfl
  | cons x rest ih =>
      simp only [List.map_cons, List.flatten_cons, List.length_append,
        List.length_cons, ih, int16Bytes]
      simp [List.length]
      omega

/-- Claim C4: for every valid CaptureConfig and every state in which
`initialize` has just succeeded, `read_block` with a successful
underlying read (which per the sounddevice contract delivers
`block_size` frames of `channels` int16 samples, hypothesis `hlen`)
returns a byte buffer of length exactly block_size * channels * 2; a
raising read yields none; and in general `read_block` returns none
exactly when the stream is unset, the capture is not running, or the
underlying read raises — the model is total, so no exception ever
propagates out of `read_block`. -/
theorem read_block_length
    (probe : Strategy → Nat → ProbeOutcome) (devices : List Device)
    (c : AudioCapture) (config : ServerConfig) (samples : List Int)
    (hrate : config.sample_rate ∈ valid_sample_rates)
    (hblock : 512 ≤ config.block_size ∧ config.block_size ≤ 4096)
    (hinit : (initializeCapture probe devices c).2.1 = true)
    (hlen : samples.length =
      config.block_size.toNat * config.channels.toNat) :
    (∃ bs : List Nat,
      read_block (initializeCapture probe devices c).1
          (ReadOutcome.ok samples) = some bs ∧
        bs.length = config.block_size.toNat * config.channels.toNat * 2) ∧
    read_block (initializeCapture probe devices c).1 ReadOutcome.raises
      = none ∧
    (∀ (st : AudioCapture) (outcome : ReadOutcome),
      read_block st outcome = none ↔
        (st.stream = none ∨ st.is_running = false ∨
          outcome = ReadOutcome.raises)) := by
  obtain ⟨hrun, hs, hstream⟩ :=
    initializeCapture_success_state probe devices c hinit
  have hcond : ((initializeCapture probe devices c).1.stream.isNone
      || !(initializeCapture probe devices c).1.is_running) = false := by
    rw [hstream, hrun]
    rfl
  refine ⟨?_, ?_, ?_⟩
  · refine ⟨(samples.map int16Bytes).flatten, ?_, ?_⟩
    · rw [read_block, hcond]
      rfl
    · rw [int16Bytes_flatten_length, hlen]
      ring
  · rw [read_block, hcond]
    rfl
  · intro st outcome
    rw [read_block.eq_def]
    by_cases h1 : (st.stream.isNone || !st.is_running) = true
    · rw [if_pos h1]
      rcases Bool.or_eq_true_iff.mp h1 with h2 | h2
      · exact iff_of_true rfl (Or.inl (Option.isNone_iff_eq_none.mp h2))
      · exact iff_of_true rfl (Or.inr (Or.inl (by
          cases hr : st.is_running
          · rfl
          · rw [hr] at h2
            exact absurd h2 (by simp))))
    · rw [if_neg h1]
      have hst : ¬(st.stream = none) := by
        intro hcontra
        exact h1 (by simp [hcontra])
      have hrn : ¬(st.is_running = false) := by
        intro hcontra
        exact h1 (by simp [hcontra])
      cases outcome with
      | raises =>
          exact iff_of_true rfl (Or.inr (Or.inr rfl))
      | ok smp =>
          constructor
          · intro hcontra
            exact Option.noConfusion hcontra
          · rintro (h2 | h2 | h2)
            · exact absurd h2 hst
            · exact absurd h2 hrn
            · exact ReadOutcome.noConfusion h2

/-- Witness for C4: defaults-valid config with block 512 and one channel,
a one-device environment where the probe succeeds, and a read returning
512 zero samples. -/
theorem read_block_length_witness :
    (∃ bs : List Nat,
      read_block (initializeCapture allOkProbe [⟨"Speakers", 0, 2⟩]
            AudioCapture.new).1
          (ReadOutcome.ok (List.replicate 512 0)) = some bs ∧
        bs.length = (512 : Int).toNat * (1 : Int).toNat * 2) ∧
    read_block (initializeCapture allOkProbe [⟨"Speakers", 0, 2⟩]
        AudioCapture.new).1 ReadOutcome.raises = none ∧
    (∀ (st : AudioCapture) (outcome : ReadOutcome),
      read_block st outcome = none ↔
        (st.stream = none ∨ st.is_running = false ∨
          outcome = ReadOutcome.raises)) :=
  read_block_length allOkProbe [⟨"Speakers", 0, 2⟩] AudioCapture.new
    { block_size := 512, channels := 1 } (List.replicate 512 0)
    (by decide) (by decide) (by decide)
    (by rw [List.length_replicate]; rfl)

/-- Removing clients never changes `total_served`. -/
theorem foldl_remove_total (ids : List String) :
    ∀ m : ConnectionManager,
      (ids.foldl (fun acc client_id => acc.remove_client client_id)
        m).total_served = m.total_served := by
  induction ids with
  | nil => intro m; rfl
  | cons id rest ih =>
      intro m
      rw [List.foldl_cons, ih, remove_client_total]

/-- `broadcast` never changes `total_served`. -/
theorem broadcast_total (m : ConnectionManager)
    (sendFails : String → Bool) (now : Nat) :
    (m.broadcast sendFails now).total_served = m.total_served := by
  rw [ConnectionManager.broadcast]
  exact foldl_remove_total _ _

/-- Claim C1: in a registry with distinct keys, when exactly the
registered session `k` fails its send during a broadcast, then after
`broadcast` returns: every other session is still registered with its
sent counter bumped by one (and its last-activity refreshed) — in
particular sessions swept after `k`, so the failure did not abort
delivery; `k` is absent from the registry (so neither its counter nor its
last-activity survive anywhere); connected_count has dropped by exactly
one; and `total_served` is untouched.  The removal happens via the
post-sweep `remove_client` pass over the collected failures, which here
is exactly `[k]`. -/
theorem broadcast_single_failure
    (m : ConnectionManager) (sendFails : String → Bool) (now : Nat)
    (k : String)
    (hnd : (clientKeys m.clients).Nodup)
    (hk : k ∈ clientKeys m.clients)
    (hexact : ∀ p ∈ m.clients, (sendFails p.1 = true ↔ p.1 = k)) :
    (∀ p ∈ m.clients, p.1 ≠ k →
      (p.1, touch now p.2) ∈ (m.broadcast sendFails now).clients) ∧
    (∀ ci : ClientInfo, (k, ci) ∉ (m.broadcast sendFails now).clients) ∧
    (m.broadcast sendFails now).get_stats.connected + 1 =
      m.get_stats.connected ∧
    (m.broadcast sendFails now).total_served = m.total_served := by
  have hkeys := broadcastSweep_keys sendFails now m.clients
  have hexactK : ∀ x ∈ clientKeys m.clients,
      (sendFails x = true ↔ x = k) := by
    intro x hx
    rcases List.mem_map.mp hx with ⟨p, hp, hfst⟩
    exact hfst ▸ hexact p hp
  have hsingle : (clientKeys m.clients).filter sendFails = [k] :=
    filter_eq_single hnd hk hexactK
  have hfailed : (broadcastSweep sendFails now m.clients).2 = [k] := by
    rw [broadcastSweep_failed, hsingle]
  have hbroad : m.broadcast sendFails now =
      ConnectionManager.remove_client
        ⟨(broadcastSweep sendFails now m.clients).1, m.total_served⟩ k := by
    rw [ConnectionManager.broadcast, hfailed]
    rfl
  have hclients : (m.broadcast sendFails now).clients =
      dictRemove k (broadcastSweep sendFails now m.clients).1 := by
    rw [hbroad, remove_client_clients]
  have hndsweep : (clientKeys
      (broadcastSweep sendFails now m.clients).1).Nodup := by
    rw [hkeys]; exact hnd
  refine ⟨?_, ?_, ?_, ?_⟩
  · intro p hp hne
    have hfalse : sendFails p.1 = false := by
      rcases Bool.eq_false_or_eq_true (sendFails p.1) with h | h
      · exact absurd ((hexact p hp).mp h) hne
      · exact h
    have hmem : (p.1, touch now p.2) ∈
        (broadcastSweep sendFails now m.clients).1 :=
      mem_broadcastSweep_of_ok (by rwa [Prod.mk.eta]) hfalse
    rw [hclients]
    exact mem_dictRemove_of_mem hmem hne
  · intro ci
    rw [hclients]
    exact not_mem_dictRemove hndsweep ci
  · have hlen : (broadcastSweep sendFails now m.clients).1.length =
        m.clients.length := by
      have := congrArg List.length hkeys
      simpa [clientKeys] using this
    have hkmem : k ∈ clientKeys (broadcastSweep sendFails now
        m.clients).1 := by
      rw [hkeys]; exact hk
    simp only [ConnectionManager.get_stats, hclients]
    rw [dictRemove_length hkmem, hlen]
  · rw [hbroad, remove_client_total]

/-- Witness for C1: two registered sessions, the first one ("a:1") fails
its send, the later one ("b:2") still receives. -/
theorem broadcast_single_failure_witness :
    (∀ p ∈ (⟨[("a:1", ⟨⟨"a", 1⟩, 0, 0, "a:1", 0⟩),
          ("b:2", ⟨⟨"b", 2⟩, 0, 0, "b:2", 4⟩)], 6⟩ :
        ConnectionManager).clients, p.1 ≠ "a:1" →
      (p.1, touch 7 p.2) ∈
        ((⟨[("a:1", ⟨⟨"a", 1⟩, 0, 0, "a:1", 0⟩),
            ("b:2", ⟨⟨"b", 2⟩, 0, 0, "b:2", 4⟩)], 6⟩ :
          ConnectionManager).broadcast
            (fun client_id => decide (client_id = "a:1")) 7).clients) ∧
    (∀ ci : ClientInfo, ("a:1", ci) ∉
      ((⟨[("a:1", ⟨⟨"a", 1⟩, 0, 0, "a:1", 0⟩),
          ("b:2", ⟨⟨"b", 2⟩, 0, 0, "b:2", 4⟩)], 6⟩ :
        ConnectionManager).broadcast
          (fun client_id => decide (client_id = "a:1")) 7).clients) ∧
    ((⟨[("a:1", ⟨⟨"a", 1⟩, 0, 0, "a:1", 0⟩),
        ("b:2", ⟨⟨"b", 2⟩, 0, 0, "b:2", 4⟩)], 6⟩ :
      ConnectionManager).broadcast
        (fun client_id => decide (client_id = "a:1")) 7).get_stats.connected
        + 1 =
      (⟨[("a:1", ⟨⟨"a", 1⟩, 0, 0, "a:1", 0⟩),
          ("b:2", ⟨⟨"b", 2⟩, 0, 0, "b:2", 4⟩)], 6⟩ :
        ConnectionManager).get_stats.connected ∧
    ((⟨[("a:1", ⟨⟨"a", 1⟩, 0, 0, "a:1", 0⟩),
        ("b:2", ⟨⟨"b", 2⟩, 0, 0, "b:2", 4⟩)], 6⟩ :
      ConnectionManager).broadcast
        (fun client_id => decide (client_id = "a:1")) 7).total_served = 6 :=
  broadcast_single_failure
    ⟨[("a:1", ⟨⟨"a", 1⟩, 0, 0, "a:1", 0⟩),
      ("b:2", ⟨⟨"b", 2⟩, 0, 0, "b:2", 4⟩)], 6⟩
    (fun client_id => decide (client_id = "a:1")) 7 "a:1"
    (by decide) (by decide) (by decide)

/-- Claim C5 counterexample: in a registry that already holds the peer
1.2.3.4:5, `add_client` for that same peer overwrites the entry
(connected_count stays 1), and the subsequent `remove_client` deletes it,
leaving connected_count 0 — one BELOW its pre-add value, contradicting
the claim that add-then-remove leaves connected_count unchanged for
every registry state. -/
theorem add_remove_count_ce :
    dupManager.get_stats.connected = 1 ∧
    ((dupManager.add_client dupSocket 9).1.remove_client
        (dupManager.add_client dupSocket 9).2).get_stats.connected = 0 ∧
    ¬(((dupManager.add_client dupSocket 9).1.remove_client
        (dupManager.add_client dupSocket 9).2).get_stats.connected =
      dupManager.get_stats.connected) := by
  refine ⟨rfl, by decide, by decide⟩

/-- Claim C5 as amended: for a peer identity NOT already present in the
registry, add-then-remove of that identity restores connected_count to
its pre-add value (indeed the whole clients map), and leaves
`total_served` larger by exactly one.  Moreover `total_served` is never
decremented by any registry operation: `remove_client`, `broadcast` and
`close_all` preserve it and `add_client` increments it. -/
theorem add_remove_fresh
    (m : ConnectionManager) (ws : WebSocket) (now : Nat)
    (hfresh : clientId ws ∉ clientKeys m.clients) :
    ((m.add_client ws now).1.remove_client
        (m.add_client ws now).2).clients = m.clients ∧
    ((m.add_client ws now).1.remove_client
        (m.add_client ws now).2).get_stats.connected =
      m.get_stats.connected ∧
    ((m.add_client ws now).1.remove_client
        (m.add_client ws now).2).total_served = m.total_served + 1 ∧
    (∀ (m0 : ConnectionManager) (client_id : String),
      (m0.remove_client client_id).total_served = m0.total_served) ∧
    (∀ (m0 : ConnectionManager) (sendFails : String → Bool) (n : Nat),
      (m0.broadcast sendFails n).total_served = m0.total_served) ∧
    (∀ (m0 : ConnectionManager) (closeFails : String → Bool) (r : String),
      (m0.close_all closeFails r).1.total_served = m0.total_served) ∧
    (∀ (m0 : ConnectionManager) (w : WebSocket) (n : Nat),
      (m0.add_client w n).1.total_served = m0.total_served + 1) := by
  have hadd : (m.add_client ws now).1.clients =
      m.clients ++ [(clientId ws, ⟨ws, now, now, clientId ws, 0⟩)] := by
    simp only [ConnectionManager.add_client]
    exact dictInsert_of_not_mem _ _ hfresh
  have hrm : ((m.add_client ws now).1.remove_client
      (m.add_client ws now).2).clients = m.clients := by
    rw [remove_client_clients]
    have hsnd : (m.add_client ws now).2 = clientId ws := rfl
    rw [hsnd, hadd]
    exact dictRemove_append_self _ hfresh
  refine ⟨hrm, ?_, ?_, ?_, ?_, ?_, ?_⟩
  · simp only [ConnectionManager.get_stats, hrm]
  · rw [remove_client_total]
    rfl
  · intro m0 client_id
    exact remove_client_total m0 client_id
  · intro m0 sendFails n
    exact broadcast_total m0 sendFails n
  · intro m0 closeFails r
    rfl
  · intro m0 w n
    rfl

/-- Witness for the amended C5: adding and removing a fresh peer in a
one-client registry. -/
theorem add_remove_fresh_witness :
    (((⟨[("b:2", ⟨⟨"b", 2⟩, 0, 0, "b:2", 4⟩)], 6⟩ :
        ConnectionManager).add_client ⟨"a", 1⟩ 9).1.remove_client
        ((⟨[("b:2", ⟨⟨"b", 2⟩, 0, 0, "b:2", 4⟩)], 6⟩ :
          ConnectionManager).add_client ⟨"a", 1⟩ 9).2).clients =
      [("b:2", ⟨⟨"b", 2⟩, 0, 0, "b:2", 4⟩)] ∧
    (((⟨[("b:2", ⟨⟨"b", 2⟩, 0, 0, "b:2", 4⟩)], 6⟩ :
        ConnectionManager).add_client ⟨"a", 1⟩ 9).1.remove_client
        ((⟨[("b:2", ⟨⟨"b", 2⟩, 0, 0, "b:2", 4⟩)], 6⟩ :
          ConnectionManager).add_client ⟨"a", 1⟩
          9).2).get_stats.connected =
      (⟨[("b:2", ⟨⟨"b", 2⟩, 0, 0, "b:2", 4⟩)], 6⟩ :
        ConnectionManager).get_stats.connected ∧
    (((⟨[("b:2", ⟨⟨"b", 2⟩, 0, 0, "b:2", 4⟩)], 6⟩ :
        ConnectionManager).add_client ⟨"a", 1⟩ 9).1.remove_client
        ((⟨[("b:2", ⟨⟨"b", 2⟩, 0, 0, "b:2", 4⟩)], 6⟩ :
          ConnectionManager).add_client ⟨"a", 1⟩ 9).2).total_served = 7 ∧
    (∀ (m0 : ConnectionManager) (client_id : String),
      (m0.remove_client client_id).total_served = m0.total_served) ∧
    (∀ (m0 : ConnectionManager) (sendFails : String → Bool) (n : Nat),
      (m0.broadcast sendFails n).total_served = m0.total_served) ∧
    (∀ (m0 : ConnectionManager) (closeFails : String → Bool) (r : String),
      (m0.close_all closeFails r).1.total_served = m0.total_served) ∧
    (∀ (m0 : ConnectionManager) (w : WebSocket) (n : Nat),
      (m0.add_client w n).1.total_served = m0.total_served + 1) :=
  add_remove_fresh ⟨[("b:2", ⟨⟨"b", 2⟩, 0, 0, "b:2", 4⟩)], 6⟩
    ⟨"a", 1⟩ 9 (by decide)

/-- Claim C10: adding a peer whose derived identity is already registered
silently overwrites the existing session: the returned id is the derived
one, connected_count is unchanged, `total_served` still goes up by one,
the registry maps the identity to the brand-new session record (fresh
timestamps, zero sent counter), and no other record for that identity
survives — the old transport handle is simply dropped from the registry,
with no close call (the model of `add_client` performs none). -/
theorem add_client_overwrites
    (m : ConnectionManager) (ws : WebSocket) (now : Nat)
    (old : ClientInfo)
    (hnd : (clientKeys m.clients).Nodup)
    (hold : (clientId ws, old) ∈ m.clients) :
    (m.add_client ws now).2 = clientId ws ∧
    (m.add_client ws now).1.get_stats.connected =
      m.get_stats.connected ∧
    (m.add_client ws now).1.total_served = m.total_served + 1 ∧
    (clientId ws, (⟨ws, now, now, clientId ws, 0⟩ : ClientInfo)) ∈
      (m.add_client ws now).1.clients ∧
    ∀ ci : ClientInfo,
      (clientId ws, ci) ∈ (m.add_client ws now).1.clients →
        ci = ⟨ws, now, now, clientId ws, 0⟩ := by
  have hmemk : clientId ws ∈ clientKeys m.clients :=
    mem_clientKeys_of_mem hold
  refine ⟨rfl, ?_, rfl, ?_, ?_⟩
  · simp only [ConnectionManager.get_stats, ConnectionManager.add_client]
    rw [dictInsert_length_of_mem _ hmemk]
  · exact dictInsert_self_mem _ _ _
  · intro ci hci
    exact dictInsert_val_unique hnd hci

/-- Witness for C10: re-adding the already-registered peer 1.2.3.4:5. -/
theorem add_client_overwrites_witness :
    (dupManager.add_client dupSocket 9).2 = clientId dupSocket ∧
    (dupManager.add_client dupSocket 9).1.get_stats.connected =
      dupManager.get_stats.connected ∧
    (dupManager.add_client dupSocket 9).1.total_served =
      dupManager.total_served + 1 ∧
    (clientId dupSocket,
        (⟨dupSocket, 9, 9, clientId dupSocket, 0⟩ : ClientInfo)) ∈
      (dupManager.add_client dupSocket 9).1.clients ∧
    ∀ ci : ClientInfo,
      (clientId dupSocket, ci) ∈
          (dupManager.add_client dupSocket 9).1.clients →
        ci = ⟨dupSocket, 9, 9, clientId dupSocket, 0⟩ :=
  add_client_overwrites dupManager dupSocket 9 dupInfo
    (by decide) (by decide)
